import Mathlib

/-!
# Verification of the token-market program

A shallow embedding of the `token-market` Solana program
(`src/program/src/{state,instruction,error,processor}.rs`) and proofs about
its instruction processor.

Modelling conventions:

* A `Pubkey` (a 32-byte identity) is modelled as a `Nat`; its byte encoding
  is 32 little-endian bytes.
* Account data is a `List Nat` of byte values.
* External collaborators (the SPL token program's `Account`/`Mint` unpacking,
  and `Pubkey::create_program_address`) are not reimplemented; their results
  are inputs of the processor functions, mirroring the fact that the source
  merely consumes their return values.
* Cross-program invocations (`invoke` / `invoke_signed`) are modelled as a
  list of emitted `LedgerCall`s; their external failure modes belong to the
  enclosing transaction collaborator and are out of scope.
* `todo!()` panics are modelled by the `Outcome.panics` constructor: the
  invocation diverges and returns neither success nor an error value.
-/

/-- Little-endian byte encoding: `natToLE w n` is the `w`-byte little-endian
encoding of `n` (truncated modulo `256 ^ w`). -/
def natToLE : Nat → Nat → List Nat
  | 0, _ => []
  | w + 1, n => n % 256 :: natToLE w (n / 256)

/-- Little-endian byte decoding, inverse of `natToLE`. -/
def leToNat : List Nat → Nat
  | [] => 0
  | b :: bs => b + 256 * leToNat bs

theorem natToLE_length (w n : Nat) : (natToLE w n).length = w := by
  induction w generalizing n with
  | zero => rfl
  | succ w ih => simp [natToLE, ih]

theorem leToNat_natToLE (w n : Nat) : leToNat (natToLE w n) = n % 256 ^ w := by
  induction w generalizing n with
  | zero => simp [natToLE, leToNat, Nat.mod_one]
  | succ w ih =>
      simp only [natToLE, leToNat, ih]
      rw [pow_succ, mul_comm (256 ^ w) 256, Nat.mod_mul]

theorem natToLE_leToNat_lt (w n : Nat) (h : n < 256 ^ w) :
    leToNat (natToLE w n) = n := by
  rw [leToNat_natToLE, Nat.mod_eq_of_lt h]

/-- A 32-byte identity (Solana `Pubkey`), modelled as a natural number. -/
abbrev Pubkey := Nat

/-- 32-byte encoding of a `Pubkey`. -/
def pubkeyToBytes (k : Pubkey) : List Nat := natToLE 32 k

/-- Decoding of a 32-byte `Pubkey`. -/
def pubkeyOfBytes (bs : List Nat) : Pubkey := leToNat bs

/-!
## Instruction codec (`src/program/src/instruction.rs`)

`TokenMarketInstructions` derives `BorshSerialize`/`BorshDeserialize`.
Borsh serializes an enum as a one-byte `u8` discriminant followed by the
variant payload; `BuyTokens`'s payload is its `u64` amount as 8 little-endian
bytes. `try_from_slice` additionally demands that the whole input slice is
consumed.
-/

/-- The instruction enum of `instruction.rs`. -/
inductive TokenMarketInstructions where
  | Initialize : TokenMarketInstructions
  | BuyTokens (amount : Nat) : TokenMarketInstructions
deriving DecidableEq, Repr

namespace TokenMarketInstructions

/-- Borsh serialization of `TokenMarketInstructions`. -/
def serialize : TokenMarketInstructions → List Nat
  | .Initialize => [0]
  | .BuyTokens amount => 1 :: natToLE 8 amount

/-- Borsh `try_from_slice` for `TokenMarketInstructions`: a one-byte
discriminant, the variant payload, and nothing left over. -/
def try_from_slice (bs : List Nat) : Except Unit TokenMarketInstructions :=
  match bs with
  | [0] => .ok .Initialize
  | 1 :: rest =>
      if rest.length = 8 then .ok (.BuyTokens (leToNat rest)) else .error ()
  | _ => .error ()

end TokenMarketInstructions

/-!
## Market record (`src/program/src/state.rs`)

```rust
pub struct TokenMarket {
    pub is_initialized: bool,
    pub owner: Pubkey,
    pub bank: Pubkey,
    pub emitter_mint: Pubkey,
    pub authority: Pubkey,
    pub mint_of_acceptable: Pubkey,
}
impl TokenMarket { pub const LEN: usize = 32 * 5 + 1; }
```
-/

structure TokenMarket where
  is_initialized : Bool
  owner : Pubkey
  bank : Pubkey
  emitter_mint : Pubkey
  authority : Pubkey
  mint_of_acceptable : Pubkey
deriving DecidableEq, Repr

namespace TokenMarket

/-- `TokenMarket::LEN`. -/
def LEN : Nat := 32 * 5 + 1

/-- Borsh serialization of the full six-field `TokenMarket` struct:
one `bool` byte followed by the five 32-byte identities in field order. -/
def serialize (tm : TokenMarket) : List Nat :=
  (if tm.is_initialized then 1 else 0)
    :: (pubkeyToBytes tm.owner ++ pubkeyToBytes tm.bank
        ++ pubkeyToBytes tm.emitter_mint ++ pubkeyToBytes tm.authority
        ++ pubkeyToBytes tm.mint_of_acceptable)

/-- Borsh `try_from_slice` for `TokenMarket`: a `bool` byte (`0` or `1`),
five 32-byte identities, and nothing left over (161 bytes exactly). -/
def try_from_slice (bs : List Nat) : Except Unit TokenMarket :=
  match bs with
  | b :: rest =>
      if rest.length = 160 then
        if b = 0 ∨ b = 1 then
          .ok { is_initialized := b = 1
              , owner := pubkeyOfBytes (rest.take 32)
              , bank := pubkeyOfBytes ((rest.drop 32).take 32)
              , emitter_mint := pubkeyOfBytes ((rest.drop 64).take 32)
              , authority := pubkeyOfBytes ((rest.drop 96).take 32)
              , mint_of_acceptable := pubkeyOfBytes (rest.drop 128) }
        else .error ()
      else .error ()
  | [] => .error ()

end TokenMarket

/-!
## Errors and outcomes

`ProgramError` variants actually reachable in `processor.rs`, plus
`Custom` for program-specific errors (`TokenMarketError::IncorrectAuthority`
is `Custom 0`, defined in `error.rs` but never returned by the processor).
-/

inductive ProgErr where
  | AccountAlreadyInitialized
  | UninitializedAccount
  | InvalidAccountData
  | InsufficientFunds
  | InvalidSeeds
  | BorshIoError
  | Custom (code : Nat)
deriving DecidableEq, Repr

/-- `TokenMarketError::IncorrectAuthority as u32 == 0`, so converting it to a
`ProgramError` yields `Custom 0` (`error.rs`). -/
def incorrectAuthorityErr : ProgErr := .Custom 0

/-- The observable outcome of one processor invocation.  `panics` models a
`todo!()` panic: the invocation diverges and returns neither `Ok` nor `Err`. -/
inductive Outcome where
  | ok
  | err (e : ProgErr)
  | panics
deriving DecidableEq, Repr

/-!
## Token Ledger Interface calls

Each `invoke`/`invoke_signed` in `processor.rs` is recorded as the SPL-token
instruction it builds, together with the forwarded account keys and, for
`invoke_signed`, the seed (the market address) of the signing derivation.
-/

inductive LedgerCall where
  /-- `spl_token::instruction::initialize_account(spl_token::id(), account, mint, owner)`. -/
  | initializeAccount (account mint owner : Pubkey) (forwarded : List Pubkey)
  /-- `spl_token::instruction::initialize_mint(spl_token::id(), mint, mint_authority, freeze_authority, decimals)`. -/
  | initializeMint (mint mintAuthority : Pubkey) (freezeAuthority : Option Pubkey)
      (decimals : Nat) (forwarded : List Pubkey)
  /-- `spl_token::instruction::transfer(spl_token::id(), source, destination, authority, [], amount)`. -/
  | transfer (source destination authority : Pubkey) (amount : Nat)
      (forwarded : List Pubkey) (signerSeed : Option Pubkey)
  /-- `spl_token::instruction::mint_to(spl_token::id(), mint, destination, authority, [], amount)`. -/
  | mintTo (mint destination authority : Pubkey) (amount : Nat)
      (forwarded : List Pubkey) (signerSeed : Option Pubkey)
deriving DecidableEq, Repr

/-- Result of one processor invocation: the outcome, the market account's
data after the call, and the ledger calls issued before returning. -/
structure ProcResult where
  outcome : Outcome
  marketData : List Nat
  calls : List LedgerCall
deriving DecidableEq, Repr

/-!
## External collaborator values

The processor consumes the results of `spl_token::state::Account::unpack_from_slice`,
`spl_token::state::Mint::unpack_from_slice` and
`Pubkey::create_program_address`.  Those collaborators are external to this
repository, so the processor functions below take their results as inputs.
-/

/-- The fields of an SPL token account (`spl_token::state::Account`) that
`process_buy_tokens` reads: its mint, its balance, and whether its state is
initialized. -/
structure SplAccount where
  mint : Pubkey
  amount : Nat
  initialized : Bool
deriving DecidableEq, Repr

/-- The field of an SPL mint (`spl_token::state::Mint`) that
`process_init_market` reads. -/
structure MintInfo where
  decimals : Nat
deriving DecidableEq, Repr

/-!
## `Processor::process_init_market` (`processor.rs:76-135`)

The success path persists the struct literal of `processor.rs:125-132`.
That literal gives only five of `TokenMarket`'s six fields —
`is_initialized`, `owner`, `bank`, `emitter_mint`, `mint_of_acceptable` —
and omits `authority`, so it is embedded as its own five-field structure.
-/

/-- The record literal written by `process_init_market`
(`processor.rs:125-132`).  Note the absence of an `authority` field. -/
structure InitMarketLiteral where
  is_initialized : Bool
  owner : Pubkey
  bank : Pubkey
  emitter_mint : Pubkey
  mint_of_acceptable : Pubkey
deriving DecidableEq, Repr

/-- Borsh serialization of the literal actually written: one `bool` byte and
four 32-byte identities (129 bytes). -/
def InitMarketLiteral.serialize (l : InitMarketLiteral) : List Nat :=
  (if l.is_initialized then 1 else 0)
    :: (pubkeyToBytes l.owner ++ pubkeyToBytes l.bank
        ++ pubkeyToBytes l.emitter_mint ++ pubkeyToBytes l.mint_of_acceptable)

/-- Writing `bytes` into an account data slice of previous content `old`:
borsh's `serialize(&mut *data.borrow_mut())` overwrites the front of the
slice and leaves the tail untouched. -/
def writeIntoSlice (old bytes : List Nat) : List Nat :=
  bytes ++ old.drop bytes.length

/-- Shallow embedding of `Processor::process_init_market`.

Inputs mirror the account parameters of the source function: the program id,
the seven account keys, the market account's data bytes, the result
`acceptableMint` of `Mint::unpack_from_slice` on the acceptable-mint account's
data, and the result `pda` of
`Pubkey::create_program_address(&[&market_info.key.to_bytes()], program_id)`. -/
def process_init_market
    (ownerKey marketKey authorityKey bankKey emitterKey acceptableKey
      tokenProgramKey : Pubkey)
    (marketData : List Nat)
    (acceptableMint : Except Unit MintInfo)
    (pda : Option Pubkey) : ProcResult :=
  match TokenMarket.try_from_slice marketData with
  | .error _ => ⟨.err .BorshIoError, marketData, []⟩
  | .ok token_market =>
    if token_market.is_initialized then
      ⟨.err .AccountAlreadyInitialized, marketData, []⟩
    else
      match acceptableMint with
      | .error _ => ⟨.err .InvalidAccountData, marketData, []⟩
      | .ok mint_of_acceptable =>
        match pda with
        | none => ⟨.err .InvalidSeeds, marketData, []⟩
        | some pda =>
          if authorityKey ≠ pda then
            ⟨.panics, marketData, []⟩
          else
            ⟨.ok,
             writeIntoSlice marketData
               (InitMarketLiteral.serialize
                 { is_initialized := true
                 , owner := ownerKey
                 , bank := bankKey
                 , emitter_mint := emitterKey
                 , mint_of_acceptable := acceptableKey }),
             [ .initializeAccount bankKey acceptableKey authorityKey
                 [tokenProgramKey, bankKey, acceptableKey]
             , .initializeMint emitterKey authorityKey (some authorityKey)
                 mint_of_acceptable.decimals [tokenProgramKey, emitterKey] ]⟩

/-!
## `Processor::process_buy_tokens` (`processor.rs:137-213`)
-/

/-- Shallow embedding of `Processor::process_buy_tokens`.

Inputs mirror the source: the program id, the market account's owner and
data, the remaining account keys, the results `write_off_account` and
`recipient_account` of `Account::unpack_from_slice` on the corresponding
accounts' data, and the requested `amount`. -/
def process_buy_tokens
    (programId : Pubkey)
    (marketKey marketOwner : Pubkey) (marketData : List Nat)
    (authorityKey emitterKey bankKey recipientKey writeOffKey
      tokenProgramKey : Pubkey)
    (write_off_account recipient_account : Except Unit SplAccount)
    (amount : Nat) : ProcResult :=
  if marketOwner = programId then
    ⟨.panics, marketData, []⟩
  else
    match TokenMarket.try_from_slice marketData with
    | .error _ => ⟨.err .BorshIoError, marketData, []⟩
    | .ok token_market =>
      if ¬token_market.is_initialized then
        ⟨.err .UninitializedAccount, marketData, []⟩
      else
        match write_off_account with
        | .error _ => ⟨.err .InvalidAccountData, marketData, []⟩
        | .ok wo_acc =>
          if ¬wo_acc.initialized then
            ⟨.err .UninitializedAccount, marketData, []⟩
          else if wo_acc.mint ≠ token_market.mint_of_acceptable then
            ⟨.err .InvalidAccountData, marketData, []⟩
          else
            match recipient_account with
            | .error _ => ⟨.err .InvalidAccountData, marketData, []⟩
            | .ok rcp_acc =>
              if ¬rcp_acc.initialized then
                ⟨.err .UninitializedAccount, marketData, []⟩
              else if rcp_acc.mint ≠ token_market.emitter_mint then
                ⟨.err .InvalidAccountData, marketData, []⟩
              else if wo_acc.amount < amount then
                ⟨.err .InsufficientFunds, marketData, []⟩
              else
                ⟨.ok, marketData,
                 [ .transfer writeOffKey token_market.bank authorityKey amount
                     [tokenProgramKey, writeOffKey, bankKey] (some marketKey)
                 , .mintTo token_market.emitter_mint recipientKey authorityKey
                     amount [tokenProgramKey, emitterKey, marketKey, recipientKey]
                     (some marketKey) ]⟩

/-!
## Ledger-call semantics on balances

Token balances live in the SPL collaborator's accounts, keyed by `Pubkey`.
A `transfer` moves its amount from source to destination; a `mintTo` credits
its destination.  `initializeAccount`/`initializeMint` do not move balances.
-/

/-- Point update of a balance map. -/
def setBal (bal : Pubkey → Nat) (k : Pubkey) (v : Nat) : Pubkey → Nat :=
  fun k' => if k' = k then v else bal k'

/-- Effect of one ledger call on the balance map. -/
def applyCall (bal : Pubkey → Nat) : LedgerCall → (Pubkey → Nat)
  | .transfer src dst _ amt _ _ =>
      let bal' := setBal bal src (bal src - amt)
      setBal bal' dst (bal' dst + amt)
  | .mintTo _ dst _ amt _ _ => setBal bal dst (bal dst + amt)
  | .initializeAccount _ _ _ _ => bal
  | .initializeMint _ _ _ _ _ => bal

/-- Effect of a list of ledger calls, applied in order. -/
def applyCalls (bal : Pubkey → Nat) : List LedgerCall → (Pubkey → Nat)
  | [] => bal
  | c :: cs => applyCalls (applyCall bal c) cs

/-!
## Theorems
-/

theorem pow_256_64 : (256 : Nat) ^ 8 = 2 ^ 64 := by norm_num

/-- C10: For every N in [0, 2^64-1], decoding the byte encoding of
`BuyTokens{amount: N}` and re-encoding the decoded instruction yields the
original byte sequence. -/
theorem buy_tokens_codec_roundtrip (N : Nat) (h : N < 2 ^ 64) :
    ∃ i, TokenMarketInstructions.try_from_slice
          (TokenMarketInstructions.serialize (.BuyTokens N)) = .ok i
      ∧ TokenMarketInstructions.serialize i
          = TokenMarketInstructions.serialize (.BuyTokens N) := by
  refine ⟨.BuyTokens N, ?_, rfl⟩
  have hlen : (natToLE 8 N).length = 8 := natToLE_length 8 N
  have hval : leToNat (natToLE 8 N) = N := by
    rw [leToNat_natToLE, Nat.mod_eq_of_lt (pow_256_64 ▸ h)]
  simp [TokenMarketInstructions.serialize, TokenMarketInstructions.try_from_slice,
        hlen, hval]

/-- Witness for `buy_tokens_codec_roundtrip` at N = 70. -/
theorem buy_tokens_codec_roundtrip_witness :
    ∃ i, TokenMarketInstructions.try_from_slice
          (TokenMarketInstructions.serialize (.BuyTokens 70)) = .ok i
      ∧ TokenMarketInstructions.serialize i
          = TokenMarketInstructions.serialize (.BuyTokens 70) :=
  buy_tokens_codec_roundtrip 70 (by norm_num)

/-- C4: For every BuyTokens invocation in which the supplied market account
is owned by the token-market program itself, `process_buy_tokens` panics via
the `todo!()` at `processor.rs:148-150` before performing any validation or
mutation: the outcome is a panic (neither `Ok` nor `Err`), the market data is
untouched, and no ledger call is issued. -/
theorem buy_tokens_panics_on_program_owned_market
    (programId marketKey marketOwner : Pubkey) (marketData : List Nat)
    (authorityKey emitterKey bankKey recipientKey writeOffKey
      tokenProgramKey : Pubkey)
    (write_off_account recipient_account : Except Unit SplAccount)
    (amount : Nat)
    (h : marketOwner = programId) :
    process_buy_tokens programId marketKey marketOwner marketData authorityKey
        emitterKey bankKey recipientKey writeOffKey tokenProgramKey
        write_off_account recipient_account amount
      = ⟨.panics, marketData, []⟩ := by
  simp [process_buy_tokens, h]

/-- Witness for `buy_tokens_panics_on_program_owned_market`. -/
theorem buy_tokens_panics_on_program_owned_market_witness :
    (1 : Pubkey) = 1
    ∧ process_buy_tokens 1 2 1 [] 3 4 5 6 7 8 (.error ()) (.error ()) 0
      = ⟨.panics, [], []⟩ :=
  ⟨rfl, buy_tokens_panics_on_program_owned_market 1 2 1 [] 3 4 5 6 7 8
    (.error ()) (.error ()) 0 rfl⟩

/-- C9: No BuyTokens invocation, whatever its outcome, mutates the Market
Record: the market account's data after `process_buy_tokens` is always its
data before the call. -/
theorem buy_tokens_never_mutates_market_record
    (programId marketKey marketOwner : Pubkey) (marketData : List Nat)
    (authorityKey emitterKey bankKey recipientKey writeOffKey
      tokenProgramKey : Pubkey)
    (write_off_account recipient_account : Except Unit SplAccount)
    (amount : Nat) :
    (process_buy_tokens programId marketKey marketOwner marketData authorityKey
        emitterKey bankKey recipientKey writeOffKey tokenProgramKey
        write_off_account recipient_account amount).marketData = marketData := by
  unfold process_buy_tokens
  repeat' split
  all_goals rfl

/-- C6: For every Initialize invocation whose market record target already
decodes to a record with `is_initialized = true`, the processor fails with
`AccountAlreadyInitialized`, the record's bytes are identical before and
after the call, and no ledger call is issued — a duplicate Initialize is
never silently accepted. -/
theorem init_market_rejects_already_initialized
    (ownerKey marketKey authorityKey bankKey emitterKey acceptableKey
      tokenProgramKey : Pubkey)
    (marketData : List Nat) (acceptableMint : Except Unit MintInfo)
    (pda : Option Pubkey) (tm : TokenMarket)
    (hdec : TokenMarket.try_from_slice marketData = .ok tm)
    (hinit : tm.is_initialized = true) :
    process_init_market ownerKey marketKey authorityKey bankKey emitterKey
        acceptableKey tokenProgramKey marketData acceptableMint pda
      = ⟨.err .AccountAlreadyInitialized, marketData, []⟩ := by
  simp [process_init_market, hdec, hinit]

set_option maxRecDepth 10000 in
/-- Witness for `init_market_rejects_already_initialized`: a concrete
161-byte record with the `initialized` flag set. -/
theorem init_market_rejects_already_initialized_witness :
    TokenMarket.try_from_slice (TokenMarket.serialize ⟨true, 10, 11, 12, 13, 14⟩)
      = .ok ⟨true, 10, 11, 12, 13, 14⟩
    ∧ (⟨true, 10, 11, 12, 13, 14⟩ : TokenMarket).is_initialized = true
    ∧ process_init_market 10 2 7 11 12 14 8
        (TokenMarket.serialize ⟨true, 10, 11, 12, 13, 14⟩) (.ok ⟨9⟩) (some 7)
      = ⟨.err .AccountAlreadyInitialized,
         TokenMarket.serialize ⟨true, 10, 11, 12, 13, 14⟩, []⟩ :=
  ⟨rfl, rfl,
   init_market_rejects_already_initialized 10 2 7 11 12 14 8
     (TokenMarket.serialize ⟨true, 10, 11, 12, 13, 14⟩) (.ok ⟨9⟩) (some 7)
     ⟨true, 10, 11, 12, 13, 14⟩ rfl rfl⟩

/-- C2 (behaviour at the failing input): for every Initialize invocation on
an uninitialized record whose supplied authority differs from the program
address derived from the market address, `process_init_market` panics via the
`todo!()` at `processor.rs:93-95` — it does not return the
`TokenMarketError::IncorrectAuthority` error — and no bank or mint account is
mutated (no ledger call is issued, the record bytes are untouched). -/
theorem init_market_wrong_authority_panics
    (ownerKey marketKey authorityKey bankKey emitterKey acceptableKey
      tokenProgramKey : Pubkey)
    (marketData : List Nat) (acceptableMint : Except Unit MintInfo)
    (pda : Option Pubkey) (tm : TokenMarket)
    (hdec : TokenMarket.try_from_slice marketData = .ok tm)
    (hinit : tm.is_initialized = false)
    (mint : MintInfo) (hmint : acceptableMint = .ok mint)
    (p : Pubkey) (hpda : pda = some p)
    (hauth : authorityKey ≠ p) :
    process_init_market ownerKey marketKey authorityKey bankKey emitterKey
        acceptableKey tokenProgramKey marketData acceptableMint pda
      = ⟨.panics, marketData, []⟩
    ∧ (process_init_market ownerKey marketKey authorityKey bankKey emitterKey
        acceptableKey tokenProgramKey marketData acceptableMint pda).outcome
      ≠ .err incorrectAuthorityErr := by
  constructor
  · simp [process_init_market, hdec, hinit, hmint, hpda, hauth]
  · simp [process_init_market, hdec, hinit, hmint, hpda, hauth]

set_option maxRecDepth 10000 in
/-- Witness for `init_market_wrong_authority_panics`: an all-zero fresh
record, derived address 9, supplied authority 7. -/
theorem init_market_wrong_authority_panics_witness :
    TokenMarket.try_from_slice (List.replicate 161 0) = .ok ⟨false, 0, 0, 0, 0, 0⟩
    ∧ (7 : Pubkey) ≠ 9
    ∧ (process_init_market 10 2 7 11 12 14 8 (List.replicate 161 0)
          (.ok ⟨9⟩) (some 9)
        = ⟨.panics, List.replicate 161 0, []⟩
      ∧ (process_init_market 10 2 7 11 12 14 8 (List.replicate 161 0)
          (.ok ⟨9⟩) (some 9)).outcome ≠ .err incorrectAuthorityErr) :=
  ⟨rfl, by decide,
   init_market_wrong_authority_panics 10 2 7 11 12 14 8 (List.replicate 161 0)
     (.ok ⟨9⟩) (some 9) ⟨false, 0, 0, 0, 0, 0⟩ rfl rfl ⟨9⟩ rfl 9 rfl
     (by decide)⟩

/-- C5: For every BuyTokens invocation that reaches the balance check
(`processor.rs:172-175`) — real market record (not owned by this program, per
the guard at line 148), initialized record, initialized write-off and
recipient accounts with matching mints — with the write-off balance strictly
below `amount`, the processor fails with `InsufficientFunds`, issues no
ledger call, leaves the record bytes untouched, and therefore leaves every
account balance unchanged. -/
theorem buy_tokens_insufficient_funds_no_mutation
    (programId marketKey marketOwner : Pubkey) (marketData : List Nat)
    (authorityKey emitterKey bankKey recipientKey writeOffKey
      tokenProgramKey : Pubkey)
    (write_off_account recipient_account : Except Unit SplAccount)
    (amount : Nat)
    (hown : marketOwner ≠ programId)
    (tm : TokenMarket)
    (hdec : TokenMarket.try_from_slice marketData = .ok tm)
    (hinit : tm.is_initialized = true)
    (wo : SplAccount) (hwo : write_off_account = .ok wo)
    (hwoInit : wo.initialized = true)
    (hwoMint : wo.mint = tm.mint_of_acceptable)
    (rc : SplAccount) (hrc : recipient_account = .ok rc)
    (hrcInit : rc.initialized = true)
    (hrcMint : rc.mint = tm.emitter_mint)
    (hbal : wo.amount < amount) :
    process_buy_tokens programId marketKey marketOwner marketData authorityKey
        emitterKey bankKey recipientKey writeOffKey tokenProgramKey
        write_off_account recipient_account amount
      = ⟨.err .InsufficientFunds, marketData, []⟩
    ∧ ∀ bal : Pubkey → Nat,
        applyCalls bal
          (process_buy_tokens programId marketKey marketOwner marketData
            authorityKey emitterKey bankKey recipientKey writeOffKey
            tokenProgramKey write_off_account recipient_account amount).calls
        = bal := by
  have hmain : process_buy_tokens programId marketKey marketOwner marketData
      authorityKey emitterKey bankKey recipientKey writeOffKey tokenProgramKey
      write_off_account recipient_account amount
      = ⟨.err .InsufficientFunds, marketData, []⟩ := by
    simp [process_buy_tokens, hown, hdec, hinit, hwo, hwoInit, hwoMint,
          hrc, hrcInit, hrcMint, hbal]
  exact ⟨hmain, fun bal => by simp [hmain, applyCalls]⟩

set_option maxRecDepth 10000 in
/-- Witness for `buy_tokens_insufficient_funds_no_mutation`: scenario C of
the spec — a 100-unit write-off account and `amount = 150`. -/
theorem buy_tokens_insufficient_funds_no_mutation_witness :
    (2 : Pubkey) ≠ 1
    ∧ TokenMarket.try_from_slice (TokenMarket.serialize ⟨true, 10, 11, 12, 13, 14⟩)
      = .ok ⟨true, 10, 11, 12, 13, 14⟩
    ∧ (process_buy_tokens 1 3 2 (TokenMarket.serialize ⟨true, 10, 11, 12, 13, 14⟩)
          4 12 11 6 7 8 (.ok ⟨14, 100, true⟩) (.ok ⟨12, 0, true⟩) 150
        = ⟨.err .InsufficientFunds,
           TokenMarket.serialize ⟨true, 10, 11, 12, 13, 14⟩, []⟩
      ∧ ∀ bal : Pubkey → Nat,
          applyCalls bal
            (process_buy_tokens 1 3 2
              (TokenMarket.serialize ⟨true, 10, 11, 12, 13, 14⟩)
              4 12 11 6 7 8 (.ok ⟨14, 100, true⟩) (.ok ⟨12, 0, true⟩) 150).calls
          = bal) :=
  ⟨by decide, rfl,
   buy_tokens_insufficient_funds_no_mutation 1 3 2
     (TokenMarket.serialize ⟨true, 10, 11, 12, 13, 14⟩) 4 12 11 6 7 8
     (.ok ⟨14, 100, true⟩) (.ok ⟨12, 0, true⟩) 150
     (by decide) ⟨true, 10, 11, 12, 13, 14⟩ rfl rfl
     ⟨14, 100, true⟩ rfl rfl rfl ⟨12, 0, true⟩ rfl rfl rfl (by decide)⟩

/-- C8: Every successful BuyTokens invocation (all structural checks pass and
the write-off balance covers `amount`) issues exactly two ledger calls — a
transfer of exactly `amount` from the write-off account into the record's
bank, and a mint of exactly `amount` of the emitter mint into the recipient
account, both signed with the market-address seed of the derived market
authority — so that, for pairwise-distinct account keys, the write-off
balance drops by `amount` while the bank and recipient balances each grow by
exactly `amount` (fixed one-to-one rate, no fee, no rounding). -/
theorem buy_tokens_success_transfers_and_mints
    (programId marketKey marketOwner : Pubkey) (marketData : List Nat)
    (authorityKey emitterKey bankKey recipientKey writeOffKey
      tokenProgramKey : Pubkey)
    (write_off_account recipient_account : Except Unit SplAccount)
    (amount : Nat)
    (hown : marketOwner ≠ programId)
    (tm : TokenMarket)
    (hdec : TokenMarket.try_from_slice marketData = .ok tm)
    (hinit : tm.is_initialized = true)
    (wo : SplAccount) (hwo : write_off_account = .ok wo)
    (hwoInit : wo.initialized = true)
    (hwoMint : wo.mint = tm.mint_of_acceptable)
    (rc : SplAccount) (hrc : recipient_account = .ok rc)
    (hrcInit : rc.initialized = true)
    (hrcMint : rc.mint = tm.emitter_mint)
    (hbal : amount ≤ wo.amount)
    (bal : Pubkey → Nat)
    (hne1 : writeOffKey ≠ tm.bank)
    (hne2 : recipientKey ≠ writeOffKey)
    (hne3 : recipientKey ≠ tm.bank) :
    process_buy_tokens programId marketKey marketOwner marketData authorityKey
        emitterKey bankKey recipientKey writeOffKey tokenProgramKey
        write_off_account recipient_account amount
      = ⟨.ok, marketData,
         [ .transfer writeOffKey tm.bank authorityKey amount
             [tokenProgramKey, writeOffKey, bankKey] (some marketKey)
         , .mintTo tm.emitter_mint recipientKey authorityKey amount
             [tokenProgramKey, emitterKey, marketKey, recipientKey]
             (some marketKey) ]⟩
    ∧ applyCalls bal
        (process_buy_tokens programId marketKey marketOwner marketData
          authorityKey emitterKey bankKey recipientKey writeOffKey
          tokenProgramKey write_off_account recipient_account amount).calls
        writeOffKey
      = bal writeOffKey - amount
    ∧ applyCalls bal
        (process_buy_tokens programId marketKey marketOwner marketData
          authorityKey emitterKey bankKey recipientKey writeOffKey
          tokenProgramKey write_off_account recipient_account amount).calls
        tm.bank
      = bal tm.bank + amount
    ∧ applyCalls bal
        (process_buy_tokens programId marketKey marketOwner marketData
          authorityKey emitterKey bankKey recipientKey writeOffKey
          tokenProgramKey write_off_account recipient_account amount).calls
        recipientKey
      = bal recipientKey + amount := by
  have hnotlt : ¬wo.amount < amount := not_lt.mpr hbal
  have hmain : process_buy_tokens programId marketKey marketOwner marketData
      authorityKey emitterKey bankKey recipientKey writeOffKey tokenProgramKey
      write_off_account recipient_account amount
      = ⟨.ok, marketData,
         [ .transfer writeOffKey tm.bank authorityKey amount
             [tokenProgramKey, writeOffKey, bankKey] (some marketKey)
         , .mintTo tm.emitter_mint recipientKey authorityKey amount
             [tokenProgramKey, emitterKey, marketKey, recipientKey]
             (some marketKey) ]⟩ := by
    simp [process_buy_tokens, hown, hdec, hinit, hwo, hwoInit, hwoMint,
          hrc, hrcInit, hrcMint, hnotlt]
  refine ⟨hmain, ?_, ?_, ?_⟩ <;>
    simp [hmain, applyCalls, applyCall, setBal, hne1, hne2, hne3,
          Ne.symm hne1, Ne.symm hne2, Ne.symm hne3]

set_option maxRecDepth 10000 in
/-- Witness for `buy_tokens_success_transfers_and_mints`: scenario B of the
spec — a 100-unit write-off account, `amount = 70`; balances end at
`30 / 70 / 70`. -/
theorem buy_tokens_success_transfers_and_mints_witness :
    process_buy_tokens 1 3 2 (TokenMarket.serialize ⟨true, 10, 11, 12, 13, 14⟩)
        4 12 11 6 7 8 (.ok ⟨14, 100, true⟩) (.ok ⟨12, 0, true⟩) 70
      = ⟨.ok, TokenMarket.serialize ⟨true, 10, 11, 12, 13, 14⟩,
         [ .transfer 7 11 4 70 [8, 7, 11] (some 3)
         , .mintTo 12 6 4 70 [8, 12, 3, 6] (some 3) ]⟩
    ∧ applyCalls (fun k => if k = 7 then 100 else 0)
        (process_buy_tokens 1 3 2
          (TokenMarket.serialize ⟨true, 10, 11, 12, 13, 14⟩)
          4 12 11 6 7 8 (.ok ⟨14, 100, true⟩) (.ok ⟨12, 0, true⟩) 70).calls 7
      = (fun k : Pubkey => if k = 7 then 100 else 0) 7 - 70
    ∧ applyCalls (fun k => if k = 7 then 100 else 0)
        (process_buy_tokens 1 3 2
          (TokenMarket.serialize ⟨true, 10, 11, 12, 13, 14⟩)
          4 12 11 6 7 8 (.ok ⟨14, 100, true⟩) (.ok ⟨12, 0, true⟩) 70).calls 11
      = (fun k : Pubkey => if k = 7 then 100 else 0) 11 + 70
    ∧ applyCalls (fun k => if k = 7 then 100 else 0)
        (process_buy_tokens 1 3 2
          (TokenMarket.serialize ⟨true, 10, 11, 12, 13, 14⟩)
          4 12 11 6 7 8 (.ok ⟨14, 100, true⟩) (.ok ⟨12, 0, true⟩) 70).calls 6
      = (fun k : Pubkey => if k = 7 then 100 else 0) 6 + 70 :=
  buy_tokens_success_transfers_and_mints 1 3 2
    (TokenMarket.serialize ⟨true, 10, 11, 12, 13, 14⟩) 4 12 11 6 7 8
    (.ok ⟨14, 100, true⟩) (.ok ⟨12, 0, true⟩) 70
    (by decide) ⟨true, 10, 11, 12, 13, 14⟩ rfl rfl
    ⟨14, 100, true⟩ rfl rfl rfl ⟨12, 0, true⟩ rfl rfl rfl (by decide)
    (fun k => if k = 7 then 100 else 0) (by decide) (by decide) (by decide)

set_option maxRecDepth 10000 in
/-- C1 counterexample: a BuyTokens invocation whose supplied authority
account (99) differs from the record's stored `authority` field (13) is not
failed — `process_buy_tokens` runs to completion with outcome `Ok`.  No
comparison with the stored `authority` exists in `processor.rs:137-213`. -/
theorem buy_tokens_authority_not_validated_counterexample :
    TokenMarket.try_from_slice (TokenMarket.serialize ⟨true, 10, 11, 12, 13, 14⟩)
      = .ok ⟨true, 10, 11, 12, 13, 14⟩
    ∧ (⟨true, 10, 11, 12, 13, 14⟩ : TokenMarket).authority = 13
    ∧ (99 : Pubkey) ≠ 13
    ∧ (process_buy_tokens 1 3 2 (TokenMarket.serialize ⟨true, 10, 11, 12, 13, 14⟩)
        99 12 11 6 7 8 (.ok ⟨14, 100, true⟩) (.ok ⟨12, 0, true⟩) 70).outcome
      = .ok :=
  ⟨rfl, rfl, by decide, rfl⟩

/-- The outcome and resulting market data of `process_buy_tokens` depend
only on the program id, the market account's owner and data, the two SPL
account parse results and the amount — not on any of the supplied account
keys (which feed only the emitted ledger calls). -/
theorem buy_tokens_result_independent_of_keys
    (programId marketOwner : Pubkey) (marketData : List Nat)
    (mk₁ a₁ e₁ b₁ r₁ w₁ t₁ mk₂ a₂ e₂ b₂ r₂ w₂ t₂ : Pubkey)
    (write_off_account recipient_account : Except Unit SplAccount)
    (amount : Nat) :
    (process_buy_tokens programId mk₁ marketOwner marketData a₁ e₁ b₁ r₁ w₁ t₁
        write_off_account recipient_account amount).outcome
      = (process_buy_tokens programId mk₂ marketOwner marketData a₂ e₂ b₂ r₂
          w₂ t₂ write_off_account recipient_account amount).outcome
    ∧ (process_buy_tokens programId mk₁ marketOwner marketData a₁ e₁ b₁ r₁ w₁
        t₁ write_off_account recipient_account amount).marketData
      = (process_buy_tokens programId mk₂ marketOwner marketData a₂ e₂ b₂ r₂
          w₂ t₂ write_off_account recipient_account amount).marketData := by
  by_cases hown : marketOwner = programId
  · simp [process_buy_tokens, hown]
  · cases hdec : TokenMarket.try_from_slice marketData with
    | error e => simp [process_buy_tokens, hown, hdec]
    | ok tm =>
      cases hinit : tm.is_initialized with
      | false => simp [process_buy_tokens, hown, hdec, hinit]
      | true =>
        cases write_off_account with
        | error e => simp [process_buy_tokens, hown, hdec, hinit]
        | ok wo =>
          cases hwoi : wo.initialized with
          | false => simp [process_buy_tokens, hown, hdec, hinit, hwoi]
          | true =>
            by_cases hwom : wo.mint = tm.mint_of_acceptable
            · cases recipient_account with
              | error e =>
                  simp [process_buy_tokens, hown, hdec, hinit, hwoi, hwom]
              | ok rc =>
                cases hrci : rc.initialized with
                | false =>
                    simp [process_buy_tokens, hown, hdec, hinit, hwoi, hwom,
                          hrci]
                | true =>
                  by_cases hrcm : rc.mint = tm.emitter_mint
                  · by_cases hamt : wo.amount < amount
                    · simp [process_buy_tokens, hown, hdec, hinit, hwoi, hwom,
                            hrci, hrcm, hamt]
                    · simp [process_buy_tokens, hown, hdec, hinit, hwoi, hwom,
                            hrci, hrcm, hamt]
                  · simp [process_buy_tokens, hown, hdec, hinit, hwoi, hwom,
                          hrci, hrcm]
            · simp [process_buy_tokens, hown, hdec, hinit, hwoi, hwom]

/-- C1 amended: `process_buy_tokens` performs no validation of the supplied
authority account at all — it never compares it with the record's stored
`authority` field, so the invocation's outcome and resulting market data are
identical for any two supplied authority accounts; the supplied key is merely
passed through as the authority of the emitted ledger calls. -/
theorem buy_tokens_outcome_independent_of_authority
    (programId marketKey marketOwner : Pubkey) (marketData : List Nat)
    (a₁ a₂ emitterKey bankKey recipientKey writeOffKey tokenProgramKey : Pubkey)
    (write_off_account recipient_account : Except Unit SplAccount)
    (amount : Nat) :
    (process_buy_tokens programId marketKey marketOwner marketData a₁
        emitterKey bankKey recipientKey writeOffKey tokenProgramKey
        write_off_account recipient_account amount).outcome
      = (process_buy_tokens programId marketKey marketOwner marketData a₂
          emitterKey bankKey recipientKey writeOffKey tokenProgramKey
          write_off_account recipient_account amount).outcome
    ∧ (process_buy_tokens programId marketKey marketOwner marketData a₁
        emitterKey bankKey recipientKey writeOffKey tokenProgramKey
        write_off_account recipient_account amount).marketData
      = (process_buy_tokens programId marketKey marketOwner marketData a₂
          emitterKey bankKey recipientKey writeOffKey tokenProgramKey
          write_off_account recipient_account amount).marketData :=
  buy_tokens_result_independent_of_keys programId marketOwner marketData
    marketKey a₁ emitterKey bankKey recipientKey writeOffKey tokenProgramKey
    marketKey a₂ emitterKey bankKey recipientKey writeOffKey tokenProgramKey
    write_off_account recipient_account amount

set_option maxRecDepth 10000 in
/-- C7 counterexample: a BuyTokens invocation whose supplied bank account
(77) differs from the record's stored `bank` identity (11) is not failed —
`process_buy_tokens` runs to completion with outcome `Ok`.  No comparison
with the stored `bank` exists in `processor.rs:137-213`. -/
theorem buy_tokens_bank_not_validated_counterexample :
    TokenMarket.try_from_slice (TokenMarket.serialize ⟨true, 10, 11, 12, 13, 14⟩)
      = .ok ⟨true, 10, 11, 12, 13, 14⟩
    ∧ (⟨true, 10, 11, 12, 13, 14⟩ : TokenMarket).bank = 11
    ∧ (77 : Pubkey) ≠ 11
    ∧ (process_buy_tokens 1 3 2 (TokenMarket.serialize ⟨true, 10, 11, 12, 13, 14⟩)
        4 12 77 6 7 8 (.ok ⟨14, 100, true⟩) (.ok ⟨12, 0, true⟩) 70).outcome
      = .ok :=
  ⟨rfl, rfl, by decide, rfl⟩

/-- C7 amended: `process_buy_tokens` performs no equality check between the
supplied bank account and the record's stored `bank` identity — the
invocation's outcome and resulting market data are identical for any two
supplied bank accounts (the emitted transfer's destination is always the
stored `market.bank`, the supplied bank key being merely forwarded in the
call's account list). -/
theorem buy_tokens_outcome_independent_of_bank
    (programId marketKey marketOwner : Pubkey) (marketData : List Nat)
    (authorityKey emitterKey b₁ b₂ recipientKey writeOffKey
      tokenProgramKey : Pubkey)
    (write_off_account recipient_account : Except Unit SplAccount)
    (amount : Nat) :
    (process_buy_tokens programId marketKey marketOwner marketData authorityKey
        emitterKey b₁ recipientKey writeOffKey tokenProgramKey
        write_off_account recipient_account amount).outcome
      = (process_buy_tokens programId marketKey marketOwner marketData
          authorityKey emitterKey b₂ recipientKey writeOffKey tokenProgramKey
          write_off_account recipient_account amount).outcome
    ∧ (process_buy_tokens programId marketKey marketOwner marketData
        authorityKey emitterKey b₁ recipientKey writeOffKey tokenProgramKey
        write_off_account recipient_account amount).marketData
      = (process_buy_tokens programId marketKey marketOwner marketData
          authorityKey emitterKey b₂ recipientKey writeOffKey tokenProgramKey
          write_off_account recipient_account amount).marketData :=
  buy_tokens_result_independent_of_keys programId marketOwner marketData
    marketKey authorityKey emitterKey b₁ recipientKey writeOffKey
    tokenProgramKey marketKey authorityKey emitterKey b₂ recipientKey
    writeOffKey tokenProgramKey write_off_account recipient_account amount

set_option maxRecDepth 10000 in
/-- C3 (behaviour at the failing input): the record literal persisted by a
successful Initialize (`processor.rs:125-132`) omits the `authority` field of
`TokenMarket` (`state.rs:6-14`), so only 129 of the record's 161 bytes are
written.  On a fresh all-zero 161-byte market account with supplied (and
correctly derived) authority 7, decoding the persisted bytes as a
`TokenMarket` yields `authority = 14` (the acceptable-mint key, shifted into
the authority slot) and `mint_of_acceptable = 0` (stale bytes) — the
`authority` identity is never persisted, contradicting the claimed
fully-initialized five-identity record. -/
theorem init_market_persists_record_without_authority :
    (InitMarketLiteral.serialize ⟨true, 10, 11, 12, 14⟩).length = 129
    ∧ TokenMarket.LEN = 161
    ∧ (process_init_market 10 2 7 11 12 14 8 (List.replicate 161 0)
        (.ok ⟨9⟩) (some 7)).outcome = .ok
    ∧ TokenMarket.try_from_slice
        (process_init_market 10 2 7 11 12 14 8 (List.replicate 161 0)
          (.ok ⟨9⟩) (some 7)).marketData
      = .ok ⟨true, 10, 11, 12, 14, 0⟩ :=
  ⟨rfl, rfl, rfl, rfl⟩
